import Mathlib

/-!
# Verification of the cursecord messaging client core

A shallow embedding, in Lean 4, of the handshake/synchronization core of the
cursecord terminal messaging client (`src/app.py`,
`src/server/schemas/responses.py`, `src/schema_components/types.py`).

Conventions of the embedding:

* Byte strings (Python `bytes`) are `List Nat`, each entry a byte value.
* Cryptographic primitives (Ed25519 verification, X25519 Diffie-Hellman,
  fresh key generation, Fernet encryption) are opaque parameters supplied by
  an `Env` structure or as explicit function arguments; the code under
  verification treats them as black boxes, so the theorems quantify over them.
* Fallible network operations return a `NetResult`, mirroring the outcomes an
  `httpx` call can have: success, `httpx.TimeoutException`,
  `httpx.HTTPStatusError`, or some other exception.
* Python exceptions that escape a function are modelled by an `Option Exc`
  component of the function's result; the state and event-trace components
  reflect the side effects already performed before the raise.
* Each handler additionally yields a trace of `Ev` events (network calls,
  event-log writes, sleeps) tagged with the step that produced them, so that
  ordering and frame properties can be stated about observable behaviour.
-/

set_option autoImplicit false

namespace Cursecord

/-! ## URL-safe base64 (Python `base64.urlsafe_b64encode` / decoding model) -/

/-- The character of the url-safe base64 alphabet at index `n < 64`:
`A-Z`, `a-z`, `0-9`, `-`, `_`. -/
def b64Char (n : Nat) : Char :=
  if n < 26 then Char.ofNat (65 + n)
  else if n < 52 then Char.ofNat (97 + (n - 26))
  else if n < 62 then Char.ofNat (48 + (n - 52))
  else if n = 62 then '-'
  else '_'

/-- Core of url-safe base64 encoding: bytes to characters, with `=` padding,
processing three input bytes (four output characters) at a time. -/
def b64EncodeCore : List Nat → List Char
  | b1 :: b2 :: b3 :: rest =>
      let n := b1 * 65536 + b2 * 256 + b3
      b64Char (n / 262144 % 64) :: b64Char (n / 4096 % 64) ::
        b64Char (n / 64 % 64) :: b64Char (n % 64) :: b64EncodeCore rest
  | [b1, b2] =>
      let n := b1 * 1024 + b2 * 4
      [b64Char (n / 4096 % 64), b64Char (n / 64 % 64), b64Char (n % 64), '=']
  | [b1] =>
      let n := b1 * 16
      [b64Char (n / 64 % 64), b64Char (n % 64), '=', '=']
  | [] => []

/-- Python's `base64.urlsafe_b64encode` followed by `.decode()`: the padded
url-safe base64 text of a byte string. -/
def urlsafe_b64encode (bs : List Nat) : String :=
  String.mk (b64EncodeCore bs)

/-- Value of a url-safe base64 alphabet character, `none` for characters
outside the alphabet (including the padding character `=`). -/
def b64DecVal (c : Char) : Option Nat :=
  if 65 ≤ c.toNat ∧ c.toNat ≤ 90 then some (c.toNat - 65)
  else if 97 ≤ c.toNat ∧ c.toNat ≤ 122 then some (c.toNat - 97 + 26)
  else if 48 ≤ c.toNat ∧ c.toNat ≤ 57 then some (c.toNat - 48 + 52)
  else if c = '-' then some 62
  else if c = '_' then some 63
  else none

/-- Core of url-safe base64 decoding: four characters at a time, with the
final block allowed to carry one or two `=` padding characters. Returns
`none` on any malformed input (wrong alphabet, length not a multiple of
four, misplaced padding). -/
def b64DecodeCore : List Char → Option (List Nat)
  | [] => some []
  | c1 :: c2 :: c3 :: c4 :: rest =>
      match b64DecVal c1, b64DecVal c2 with
      | some v1, some v2 =>
        if c3 = '=' then
          if c4 = '=' ∧ rest = [] then some [v1 * 4 + v2 / 16] else none
        else
          match b64DecVal c3 with
          | some v3 =>
            if c4 = '=' then
              if rest = [] then some [v1 * 4 + v2 / 16, v2 % 16 * 16 + v3 / 4]
              else none
            else
              match b64DecVal c4, b64DecodeCore rest with
              | some v4, some bs =>
                  some ((v1 * 4 + v2 / 16) :: (v2 % 16 * 16 + v3 / 4) ::
                    (v3 % 4 * 64 + v4) :: bs)
              | _, _ => none
          | none => none
      | _, _ => none
  | _ => none

/-- Decoding of a padded url-safe base64 string into its bytes. -/
def b64Decode (s : String) : Option (List Nat) :=
  b64DecodeCore s.data

/-! ## Wire field validation (`src/schema_components/types.py`)

The pydantic pipeline for `Base64Key` runs `BeforeValidator(validate_key_input)`
first and then checks the `Field` length bounds `min_length=44, max_length=44`
(`max_length=88, min_length=88` for `Base64Signature`). The length bounds are
in `src/schema_components/types.py`; the before-validators live in
`schema_components/validators.py`, which is not part of the sources. -/

/-- Modelled from the spec: `validate_key_input` (from
`schema_components/validators.py`, not under `src/`) accepts exactly the
url-safe base64 text encodings of 32-byte values and passes the text through
unchanged; anything else is rejected as malformed, never coerced
(spec section 6: "any other length is a malformed element (reject, don't
coerce)"). -/
def validate_key_input (s : String) : Option String :=
  match b64Decode s with
  | some bs => if bs.length = 32 then some s else none
  | none => none

/-- Modelled from the spec: `validate_signature_input` (from
`schema_components/validators.py`, not under `src/`) accepts exactly the
url-safe base64 text encodings of 64-byte signatures, passing the text
through unchanged and rejecting everything else. -/
def validate_signature_input (s : String) : Option String :=
  match b64Decode s with
  | some bs => if bs.length = 64 then some s else none
  | none => none

/-- The full acceptance pipeline of the `Base64Key` annotated type: the
before-validator, then pydantic's `min_length=44, max_length=44` bounds. -/
def base64KeyAccept (s : String) : Option String :=
  match validate_key_input s with
  | some t => if 44 ≤ t.length ∧ t.length ≤ 44 then some t else none
  | none => none

/-- The full acceptance pipeline of the `Base64Signature` annotated type: the
before-validator, then pydantic's `min_length=88, max_length=88` bounds. -/
def base64SignatureAccept (s : String) : Option String :=
  match validate_signature_input s with
  | some t => if 88 ≤ t.length ∧ t.length ≤ 88 then some t else none
  | none => none

/-! ## Fetch response elements (`src/server/schemas/responses.py`) -/

/-- An Ed25519 verification key, by its 32 raw bytes
(`Ed25519PublicKey.public_bytes_raw()`). -/
structure VerificationKey where
  raw : List Nat
  deriving DecidableEq, Repr

/-- An X25519 public exchange key, by its 32 raw bytes
(`X25519PublicKey.public_bytes_raw()`). -/
structure PublicExchangeKey where
  raw : List Nat
  deriving DecidableEq, Repr

/-- Byte view of a Python string under `str.encode()`. -/
def strBytes (s : String) : List Nat :=
  s.data.map Char.toNat

/-- Structure `FetchResponseExchangeKey`: a decoded exchange-key fetch element. -/
structure FetchResponseExchangeKey where
  sender_key : VerificationKey
  signature : List Nat
  timestamp : Nat
  exchange_key : PublicExchangeKey
  initial_key : Option PublicExchangeKey
  deriving DecidableEq, Repr

/-- Structure `FetchResponseMessage`: a decoded message fetch element. -/
structure FetchResponseMessage where
  sender_key : VerificationKey
  signature : List Nat
  timestamp : Nat
  nonce : String
  encrypted_text : String
  deriving DecidableEq, Repr

/-- A decoded fetch element: the `_FetchResponseElement` hierarchy as a tagged
sum of its two concrete subclasses. -/
inductive FetchElement where
  | exchangeKey (e : FetchResponseExchangeKey)
  | message (m : FetchResponseMessage)
  deriving DecidableEq, Repr

namespace FetchElement

/-- The element's `sender_key`, as raw bytes. -/
def sender_key : FetchElement → List Nat
  | .exchangeKey e => e.sender_key.raw
  | .message m => m.sender_key.raw

/-- The element's `signature` bytes. -/
def signature : FetchElement → List Nat
  | .exchangeKey e => e.signature
  | .message m => m.signature

/-- Method `_get_data`: the kind-specific canonical signed payload. For an
exchange-key element, the raw bytes of its own ephemeral public key
(`self.exchange_key.public_bytes_raw()`); for a message element, the bytes of
its encrypted text (`self.encrypted_text.encode()`). -/
def get_data : FetchElement → List Nat
  | .exchangeKey e => e.exchange_key.raw
  | .message m => strBytes m.encrypted_text

/-- Property `_FetchResponseElement.is_valid`, parametrized by the Ed25519 verification
primitive `verify` (key bytes, signature bytes, data bytes): Python's
`Ed25519PublicKey.verify` raises on failure, modelled by the `Except` result.
`is_valid` calls it on the kind-specific data and converts any raise into
`False`. It is a pure function: it reads only the element's fields and
mutates nothing. -/
def is_valid (verify : List Nat → List Nat → List Nat → Except String Unit)
    (el : FetchElement) : Bool :=
  match verify el.sender_key el.signature el.get_data with
  | .ok _ => true
  | .error _ => false

end FetchElement

/-! ## The application state (`src/app.py`)

The durable store (contacts, received exchange keys, Fernet session keys) is
modelled explicitly to the extent `app.py` manipulates it inline; the store
operations imported from `database.operations` (not under `src/`) are opaque
`Store → Store` transformers supplied by the environment. -/

/-- A `Contact` row: id, name, and the contact's Ed25519 verification key
(raw bytes). -/
structure Contact where
  id : Nat
  name : String
  verification_key : List Nat
  deriving DecidableEq, Repr

/-- A `ReceivedExchangeKey` row: an inbound ephemeral key offer, with its
`matched` flag.  `contact_id` and `contact_verification_key` model the
`key.contact.id` / `key.contact.verification_key` relationship accesses. -/
structure ReceivedExchangeKey where
  id : Nat
  contact_id : Nat
  contact_verification_key : List Nat
  public_key : List Nat
  matched : Bool
  deriving DecidableEq, Repr

/-- A `FernetKey` row: the persisted symmetric session key of a contact.
`encoded_bytes` is the url-safe base64 text of the key material and
`timestamp` its derivation time (the server timestamp of the exchange-key
post response). -/
structure FernetKey where
  encoded_bytes : String
  contact_id : Nat
  timestamp : Nat
  deriving DecidableEq, Repr

/-- The durable store owned by the session database. -/
structure Store where
  contacts : List Contact
  receivedKeys : List ReceivedExchangeKey
  fernetKeys : List FernetKey
  deriving DecidableEq, Repr

/-- The mutable state of `App` that the claims mention: the `connected` flag,
the store, the output (event) log as a list of entry titles, the message-log
widget's update counter, and the UI selection/entry fields used by
`_post_message`. -/
structure AppState where
  connected : Bool
  store : Store
  outputLog : List String
  messageLogUpdates : Nat
  selectedContact : Option Contact
  entryInput : String
  deriving DecidableEq, Repr

/-- Appends an entry (by title) to the output log — `output_log.add_item`. -/
def pushLog (s : AppState) (title : String) : AppState :=
  { s with outputLog := s.outputLog ++ [title] }

/-- The outcome of a network operation, mirroring `httpx`: success with a
response value, `httpx.TimeoutException`, `httpx.HTTPStatusError`, or any
other exception. -/
inductive NetResult (α : Type) where
  | ok (val : α)
  | timeout
  | statusError (detail : String)
  | err (detail : String)
  deriving DecidableEq, Repr

/-- A Python exception escaping a handler: a timeout or anything else. -/
inductive Exc where
  | timeoutExc
  | otherExc (detail : String)
  deriving DecidableEq, Repr

/-- The step of the engine that produced an observable event. -/
inductive StepTag where
  | fetch
  | respond
  | exchange
  | cycleWrap
  | uiOp
  | loopOp
  deriving DecidableEq, Repr

/-- An observable network call. `postMsg` records the session key selected
for encryption (by its encoded material) and the ciphertext posted. -/
inductive NetOp where
  | pingOp
  | fetchReq
  | postKey (recordId : Nat)
  | postExchange (contactId : Nat)
  | postMsg (keyEncoded : String) (ciphertext : String)
  deriving DecidableEq, Repr

/-- An observable event: a network call, an event-log write, or the fixed
poll-interval sleep of the background loop. -/
inductive Ev where
  | net (t : StepTag) (op : NetOp)
  | logEv (t : StepTag) (title : String)
  | sleepEv
  deriving DecidableEq, Repr

/-- The step tag of an event (the sleep belongs to the loop itself). -/
def tagOf : Ev → StepTag
  | .net t _ => t
  | .logEv t _ => t
  | .sleepEv => .loopOp

/-- The environment: outcomes of network calls, the opaque cryptographic
primitives, and the opaque store operations from `database.operations`.
`freshPriv` (indexed by the record id being responded to) and
`freshPrivContact` (indexed by the contact id of an initiated exchange)
model `X25519PrivateKey.generate()`; `dh` models
`X25519PrivateKey.exchange`; `fernetEncrypt` models `Fernet.encrypt` of a
plaintext under a key given by its encoded material. -/
structure Env where
  pingOk : Bool
  fetchResult : NetResult Nat
  storeFetchedData : Nat → Store → Store
  postKeyResult : Nat → NetResult Nat
  freshPriv : Nat → List Nat
  freshPrivContact : Nat → List Nat
  dh : List Nat → List Nat → List Nat
  postExchangeResult : Nat → NetResult Nat
  storePostedExchangeKey : Nat → List Nat → Store → Store
  fernetEncrypt : String → String → String
  postMessageResult : NetResult Nat
  storePostedMessage : String → Nat → Nat → Store → Store

/-! ## The sync-engine handlers (`App` methods) -/

/-- Modelled from the spec: `get_contact_keys` (from
`database/operations.py`, not under `src/`) returns the verification keys of
the known contacts — spec section 4.3 step 1, "request all elements addressed
to any known contact's verification key". -/
def get_contact_keys (s : AppState) : List (List Nat) :=
  s.store.contacts.map (·.verification_key)

/-- Modelled from the spec: `get_unmatched_keys` (from
`database/operations.py`, not under `src/`) returns every persisted
`ReceivedExchangeKey` row with `matched == false`. -/
def get_unmatched_keys (s : AppState) : List ReceivedExchangeKey :=
  s.store.receivedKeys.filter (fun r => !r.matched)

/-- Modelled from the spec: `get_contacts_without_keys` (from
`database/operations.py`, not under `src/`) returns every `Contact` with zero
session-key rows. -/
def get_contacts_without_keys (s : AppState) : List Contact :=
  s.store.contacts.filter
    (fun c => (s.store.fernetKeys.filter (fun fk => fk.contact_id == c.id)).isEmpty)

/-- Method `App._ping_server`: issue the reachability probe; on success log
"Connection Established" and return `true`; on any failure return `false`
(no log entry). -/
def ping_server (env : Env) (s : AppState) : AppState × Bool × List Ev :=
  if env.pingOk then
    (pushLog s "Connection Established", true,
      [.net .loopOp .pingOp, .logEv .loopOp "Connection Established"])
  else
    (s, false, [.net .loopOp .pingOp])

/-- Method `App._fetch_handler`: if no contact keys are known, return at once
(no network call, no state change).  Otherwise fetch; on success store the
response (under the database write lock) and update the message log; on an
`HTTPStatusError` log "Bad Response"; a timeout or any other exception
escapes to the caller. -/
def fetch_handler (env : Env) (s : AppState) : AppState × List Ev × Option Exc :=
  if (get_contact_keys s).isEmpty then (s, [], none)
  else
    match env.fetchResult with
    | .ok resp =>
        ({ s with store := env.storeFetchedData resp s.store,
                  messageLogUpdates := s.messageLogUpdates + 1 },
         [.net .fetch .fetchReq], none)
    | .statusError _ =>
        (pushLog s "Bad Response",
         [.net .fetch .fetchReq, .logEv .fetch "Bad Response"], none)
    | .timeout => (s, [.net .fetch .fetchReq], some .timeoutExc)
    | .err d => (s, [.net .fetch .fetchReq], some (.otherExc d))

/-- Marks the row with the given id as matched —
`session.get_one(ReceivedExchangeKey, key.id); matched_key.matched = True`. -/
def markMatched (rows : List ReceivedExchangeKey) (i : Nat) :
    List ReceivedExchangeKey :=
  rows.map (fun r => if r.id == i then { r with matched := true } else r)

/-- The loop body of `App._key_response_handler` over the pre-fetched list of
unmatched keys: for each, generate a fresh private key, compute the raw
Diffie-Hellman shared secret with the offer's public key, url-safe base64
encode it, and post the response.  On success, in one persistence step mark
the source row matched and append the `FernetKey` row (material = the encoded
shared secret, timestamp = the response timestamp).  On an `HTTPStatusError`
log "Bad Response" and continue with the remaining keys.  A timeout or any
other exception escapes, aborting the loop. -/
def processKeys (env : Env) :
    List ReceivedExchangeKey → AppState → AppState × List Ev × Option Exc
  | [], s => (s, [], none)
  | k :: rest, s =>
    match env.postKeyResult k.id with
    | .ok ts =>
        let s' := { s with store :=
          { s.store with
              receivedKeys := markMatched s.store.receivedKeys k.id,
              fernetKeys := s.store.fernetKeys ++
                [⟨urlsafe_b64encode (env.dh (env.freshPriv k.id) k.public_key),
                  k.contact_id, ts⟩] } }
        let r := processKeys env rest s'
        (r.1, .net .respond (.postKey k.id) :: r.2.1, r.2.2)
    | .statusError _ =>
        let r := processKeys env rest (pushLog s "Bad Response")
        (r.1, .net .respond (.postKey k.id) ::
          .logEv .respond "Bad Response" :: r.2.1, r.2.2)
    | .timeout => (s, [.net .respond (.postKey k.id)], some .timeoutExc)
    | .err d => (s, [.net .respond (.postKey k.id)], some (.otherExc d))

/-- Method `App._key_response_handler`: respond to every unmatched inbound offer. -/
def key_response_handler (env : Env) (s : AppState) :
    AppState × List Ev × Option Exc :=
  processKeys env (get_unmatched_keys s) s

/-- Method `App._post_exchange_key`: refuse with a log entry when not connected;
otherwise generate a fresh private key and post its public half.  Every
exception — including a timeout — is caught here and reported to the log;
nothing escapes and `connected` is never modified. -/
def post_exchange_key (env : Env) (s : AppState) (c : Contact) :
    AppState × List Ev :=
  if s.connected = false then
    (pushLog s "Exchange Key Post Error - No Connection",
     [.logEv .exchange "Exchange Key Post Error - No Connection"])
  else
    let priv := env.freshPrivContact c.id
    match env.postExchangeResult c.id with
    | .ok _ =>
        (pushLog { s with store := env.storePostedExchangeKey c.id priv s.store }
          "Exchange Key Post Success",
         [.net .exchange (.postExchange c.id),
          .logEv .exchange "Exchange Key Post Success"])
    | .timeout =>
        (pushLog s "Exchange Key Post Error",
         [.net .exchange (.postExchange c.id),
          .logEv .exchange "Exchange Key Post Error"])
    | .statusError _ =>
        (pushLog s "Exchange Key Post Error - Bad Response",
         [.net .exchange (.postExchange c.id),
          .logEv .exchange "Exchange Key Post Error - Bad Response"])
    | .err _ =>
        (pushLog s "Exchange Key Post Error - Unhandled Exception",
         [.net .exchange (.postExchange c.id),
          .logEv .exchange "Exchange Key Post Error - Unhandled Exception"])

/-- The loop of `App._new_contact_key_handler` over its pre-fetched contact
list. -/
def postContactsLoop (env : Env) : List Contact → AppState → AppState × List Ev
  | [], s => (s, [])
  | c :: cs, s =>
    let p := post_exchange_key env s c
    let r := postContactsLoop env cs p.1
    (r.1, p.2 ++ r.2)

/-- Method `App._new_contact_key_handler`: initiate a key exchange for every contact
without a session key.  Never raises. -/
def new_contact_key_handler (env : Env) (s : AppState) :
    AppState × List Ev × Option Exc :=
  let r := postContactsLoop env (get_contacts_without_keys s) s
  (r.1, r.2, none)

/-- The `except` clauses of the `CONNECTED` branch of
`App._run_server_operations`: a `TimeoutException` logs "Server Connection
Error" and sets `connected` to `False`; any other exception logs "Unhandled
Server Error" and leaves `connected` untouched. -/
def handleCycleExc (s : AppState) : Exc → AppState × List Ev
  | .timeoutExc =>
      ({ pushLog s "Server Connection Error" with connected := false },
       [.logEv .cycleWrap "Server Connection Error"])
  | .otherExc _ =>
      (pushLog s "Unhandled Server Error",
       [.logEv .cycleWrap "Unhandled Server Error"])

/-- One `CONNECTED` cycle of `App._run_server_operations`: the three steps in
order — fetch, respond to unmatched offers, auto-exchange for new contacts —
each starting only after the previous returned; an exception escaping a step
aborts the remainder and is dispatched by `handleCycleExc`. -/
def runConnectedCycle (env : Env) (s : AppState) : AppState × List Ev :=
  let f := fetch_handler env s
  match f.2.2 with
  | some e =>
      let w := handleCycleExc f.1 e
      (w.1, f.2.1 ++ w.2)
  | none =>
    let kr := key_response_handler env f.1
    match kr.2.2 with
    | some e =>
        let w := handleCycleExc kr.1 e
        (w.1, f.2.1 ++ kr.2.1 ++ w.2)
    | none =>
      let nc := new_contact_key_handler env kr.1
      match nc.2.2 with
      | some e =>
          let w := handleCycleExc nc.1 e
          (w.1, f.2.1 ++ kr.2.1 ++ nc.2.1 ++ w.2)
      | none => (nc.1, f.2.1 ++ kr.2.1 ++ nc.2.1)

/-- One iteration of the `while True` loop of `App._run_server_operations`.
When disconnected, probe and `continue` — the `continue` skips the
`time.sleep(settings.server.fetch_interval)` at the bottom of the loop, so no
sleep event is emitted on that path.  When connected, run the cycle and then
sleep the fixed interval. -/
def loopIteration (env : Env) (s : AppState) : AppState × List Ev :=
  if s.connected = false then
    let p := ping_server env s
    ({ p.1 with connected := p.2.1 }, p.2.2)
  else
    let r := runConnectedCycle env s
    (r.1, r.2 ++ [.sleepEv])

/-- Runs `n` iterations of the background loop, with the event traces
concatenated in order. -/
def runLoop (env : Env) : Nat → AppState → AppState × List Ev
  | 0, s => (s, [])
  | n + 1, s =>
    let i := loopIteration env s
    let r := runLoop env n i.1
    (r.1, i.2 ++ r.2)

/-! ## Outbound message posting (`App._post_message`) -/

/-- Inserts a key into a list sorted by descending timestamp. -/
def insertDesc (k : FernetKey) : List FernetKey → List FernetKey
  | [] => [k]
  | x :: xs =>
      if x.timestamp ≤ k.timestamp then k :: x :: xs else x :: insertDesc k xs

/-- Sorts a list of session keys by descending derivation timestamp
(most recently derived first). -/
def sortDesc : List FernetKey → List FernetKey
  | [] => []
  | x :: xs => insertDesc x (sortDesc xs)

/-- Modelled from the spec: `ContactOutputSchema.fernet_keys` (from
`database/schemas/outputs.py`, not under `src/`) lists the contact's
persisted session keys ordered so that the most recently derived key comes
first — spec section 4.4 requires the most recently derived key to be the one
used for encrypting outbound messages, and `_post_message` takes
`fernet_keys[0]`. -/
def contactFernetKeys (s : AppState) (contactId : Nat) : List FernetKey :=
  sortDesc (s.store.fernetKeys.filter (fun fk => fk.contact_id == contactId))

/-- Method `App._post_message`: silently return when no contact is selected, the
entry is empty, or the contact row is gone; refuse with a "No Connection" log
entry when disconnected; refuse with a "No Encryption Key" log entry — before
any network operation — when the contact has no session key.  Otherwise
encrypt the plaintext under `fernet_keys[0]` and post; on success persist the
sent message, clear the entry and log success; each failure kind is caught
and logged. -/
def post_message (env : Env) (s : AppState) : AppState × List Ev :=
  match s.selectedContact with
  | none => (s, [])
  | some sel =>
    if s.entryInput = "" then (s, [])
    else if s.connected = false then
      (pushLog s "Message Post Error - No Connection",
       [.logEv .uiOp "Message Post Error - No Connection"])
    else
      match s.store.contacts.find? (fun c => c.id == sel.id) with
      | none => (s, [])
      | some obj =>
        match contactFernetKeys s obj.id with
        | [] =>
            (pushLog s "Message Post Error - No Encryption Key",
             [.logEv .uiOp "Message Post Error - No Encryption Key"])
        | fk :: _ =>
          let plaintext := s.entryInput
          let ciphertext := env.fernetEncrypt fk.encoded_bytes plaintext
          let netEv := Ev.net .uiOp (.postMsg fk.encoded_bytes ciphertext)
          match env.postMessageResult with
          | .ok resp =>
              (pushLog
                { s with
                    store := env.storePostedMessage plaintext obj.id resp s.store,
                    entryInput := "",
                    messageLogUpdates := s.messageLogUpdates + 1 }
                "Message Post Success",
               [netEv, .logEv .uiOp "Message Post Success"])
          | .timeout =>
              (pushLog s "Message Post Error - Request Timed Out",
               [netEv, .logEv .uiOp "Message Post Error - Request Timed Out"])
          | .statusError _ =>
              (pushLog s "Message Post Error - Bad Response",
               [netEv, .logEv .uiOp "Message Post Error - Bad Response"])
          | .err _ =>
              (pushLog s "Message Post Error - Unhandled Exception",
               [netEv, .logEv .uiOp "Message Post Error - Unhandled Exception"])

/-- The `matched` flag of the exchange-key record with the given id, `none`
when no such record exists. -/
def matchedOf (s : AppState) (i : Nat) : Option Bool :=
  (s.store.receivedKeys.find? (fun r => r.id == i)).map (·.matched)

/-! ## Helper lemmas -/

theorem mem_insertDesc (k x : FernetKey) :
    ∀ l : List FernetKey, x ∈ insertDesc k l ↔ x = k ∨ x ∈ l := by
  intro l
  induction l with
  | nil => simp [insertDesc]
  | cons a as ih =>
      by_cases hle : a.timestamp ≤ k.timestamp <;>
        simp [insertDesc, hle, ih] <;> tauto

theorem mem_sortDesc (x : FernetKey) :
    ∀ l : List FernetKey, x ∈ sortDesc l ↔ x ∈ l := by
  intro l
  induction l with
  | nil => simp [sortDesc]
  | cons a as ih => simp [sortDesc, mem_insertDesc, ih]

theorem insertDesc_head_max (k : FernetKey) (l : List FernetKey)
    (hl : ∀ h tl, l = h :: tl → ∀ x ∈ l, x.timestamp ≤ h.timestamp) :
    ∀ h tl, insertDesc k l = h :: tl →
      ∀ x, (x = k ∨ x ∈ l) → x.timestamp ≤ h.timestamp := by
  cases l with
  | nil =>
      intro h tl he x hx
      simp only [insertDesc] at he
      obtain ⟨rfl, -⟩ := List.cons.inj he
      rcases hx with rfl | hx
      · exact le_refl _
      · simp at hx
  | cons a as =>
      intro h tl he x hx
      by_cases hle : a.timestamp ≤ k.timestamp
      · simp only [insertDesc, if_pos hle] at he
        obtain ⟨rfl, -⟩ := List.cons.inj he
        rcases hx with rfl | hx
        · exact le_refl _
        · exact le_trans (hl a as rfl x hx) hle
      · simp only [insertDesc, if_neg hle] at he
        obtain ⟨rfl, -⟩ := List.cons.inj he
        rcases hx with rfl | hx
        · omega
        · rcases List.mem_cons.mp hx with rfl | hx'
          · exact le_refl _
          · exact hl a as rfl x (List.mem_cons_of_mem _ hx')

theorem sortDesc_head_max :
    ∀ (l : List FernetKey) (h : FernetKey) (tl : List FernetKey),
      sortDesc l = h :: tl → ∀ x ∈ l, x.timestamp ≤ h.timestamp := by
  intro l
  induction l with
  | nil => intro h tl he; simp [sortDesc] at he
  | cons a as ih =>
      intro h tl he x hx
      have hmax : ∀ h' tl', sortDesc as = h' :: tl' →
          ∀ y ∈ sortDesc as, y.timestamp ≤ h'.timestamp := by
        intro h' tl' he' y hy
        exact ih h' tl' he' y ((mem_sortDesc y as).mp hy)
      refine insertDesc_head_max a (sortDesc as) hmax h tl he x ?_
      rcases List.mem_cons.mp hx with rfl | hx'
      · exact Or.inl rfl
      · exact Or.inr ((mem_sortDesc x as).mpr hx')

theorem sortDesc_head_mem (l : List FernetKey) (h : FernetKey)
    (tl : List FernetKey) (he : sortDesc l = h :: tl) : h ∈ l :=
  (mem_sortDesc h l).mp (he ▸ List.mem_cons_self h tl)

theorem insertDesc_ne_nil (k : FernetKey) (l : List FernetKey) :
    insertDesc k l ≠ [] := by
  cases l with
  | nil => simp [insertDesc]
  | cons a as =>
      by_cases hle : a.timestamp ≤ k.timestamp <;> simp [insertDesc, hle]

theorem sortDesc_ne_nil (l : List FernetKey) (hl : l ≠ []) :
    sortDesc l ≠ [] := by
  cases l with
  | nil => exact absurd rfl hl
  | cons a as => simp only [sortDesc]; exact insertDesc_ne_nil a (sortDesc as)

theorem find?_markMatched (i j : Nat) (hij : i ≠ j) :
    ∀ rows : List ReceivedExchangeKey,
      (markMatched rows j).find? (fun r => r.id == i) =
        rows.find? (fun r => r.id == i) := by
  intro rows
  induction rows with
  | nil => rfl
  | cons r rows ih =>
      show ((if r.id == j then { r with matched := true } else r) ::
          markMatched rows j).find? (fun r2 => r2.id == i) = _
      by_cases hj : r.id = j
      · rw [if_pos (by simp [hj])]
        rw [List.find?_cons_of_neg _ (by simp [hj, Ne.symm hij]),
            List.find?_cons_of_neg _ (by simp [hj, Ne.symm hij])]
        exact ih
      · rw [if_neg (by simp [hj])]
        by_cases hi : r.id = i
        · rw [List.find?_cons_of_pos _ (by simp [hi]),
              List.find?_cons_of_pos _ (by simp [hi])]
        · rw [List.find?_cons_of_neg _ (by simp [hi]),
              List.find?_cons_of_neg _ (by simp [hi])]
          exact ih

theorem processKeys_matched_frame (env : Env)
    (l : List ReceivedExchangeKey) (i : Nat) (hi : i ∉ l.map (·.id)) :
    ∀ s : AppState, matchedOf (processKeys env l s).1 i = matchedOf s i := by
  induction l with
  | nil => intro s; rfl
  | cons k rest ih =>
      intro s
      simp only [List.map_cons, List.mem_cons, not_or] at hi
      obtain ⟨hki, hrest⟩ := hi
      cases hpk : env.postKeyResult k.id with
      | ok ts =>
          simp only [processKeys, hpk]
          rw [ih hrest]
          show ((markMatched s.store.receivedKeys k.id).find?
            (fun r => r.id == i)).map (·.matched) = _
          rw [find?_markMatched i k.id hki]
          rfl
      | statusError d =>
          simp only [processKeys, hpk]
          rw [ih hrest]
          rfl
      | timeout => simp [processKeys, hpk]
      | err d => simp [processKeys, hpk]

theorem fetch_handler_connected (env : Env) (s : AppState) :
    (fetch_handler env s).1.connected = s.connected := by
  unfold fetch_handler
  split
  · rfl
  · split <;> rfl

theorem processKeys_connected (env : Env) (l : List ReceivedExchangeKey) :
    ∀ s : AppState, (processKeys env l s).1.connected = s.connected := by
  induction l with
  | nil => intro s; rfl
  | cons k rest ih =>
      intro s
      cases hpk : env.postKeyResult k.id <;>
        simp [processKeys, hpk, ih, pushLog]

theorem key_response_handler_connected (env : Env) (s : AppState) :
    (key_response_handler env s).1.connected = s.connected :=
  processKeys_connected env (get_unmatched_keys s) s

theorem post_exchange_key_connected (env : Env) (s : AppState) (c : Contact) :
    (post_exchange_key env s c).1.connected = s.connected := by
  unfold post_exchange_key
  split
  · rfl
  · split <;> rfl

theorem postContactsLoop_connected (env : Env) (cs : List Contact) :
    ∀ s : AppState, (postContactsLoop env cs s).1.connected = s.connected := by
  induction cs with
  | nil => intro s; rfl
  | cons c cs ih =>
      intro s
      simp only [postContactsLoop]
      rw [ih, post_exchange_key_connected]

theorem new_contact_key_handler_connected (env : Env) (s : AppState) :
    (new_contact_key_handler env s).1.connected = s.connected :=
  postContactsLoop_connected env (get_contacts_without_keys s) s

theorem new_contact_key_handler_exc (env : Env) (s : AppState) :
    (new_contact_key_handler env s).2.2 = none := rfl

theorem fetch_handler_tags (env : Env) (s : AppState) :
    ∀ e ∈ (fetch_handler env s).2.1, tagOf e = .fetch := by
  unfold fetch_handler
  split
  · intro e he; simp at he
  · split <;> intro e he <;>
      simp only [List.mem_cons, List.not_mem_nil, or_false] at he <;>
      (try rcases he with rfl | rfl) <;> (try rw [he]) <;> rfl

theorem processKeys_tags (env : Env) (l : List ReceivedExchangeKey) :
    ∀ (s : AppState), ∀ e ∈ (processKeys env l s).2.1, tagOf e = .respond := by
  induction l with
  | nil => intro s e he; simp [processKeys] at he
  | cons k rest ih =>
      intro s e he
      cases hpk : env.postKeyResult k.id <;>
        simp only [processKeys, hpk, List.mem_cons, List.not_mem_nil,
          or_false] at he
      case ok ts =>
        rcases he with rfl | he
        · rfl
        · exact ih _ e he
      case timeout => rw [he]; rfl
      case statusError d =>
        rcases he with rfl | rfl | he
        · rfl
        · rfl
        · exact ih _ e he
      case err d => rw [he]; rfl

theorem key_response_handler_tags (env : Env) (s : AppState) :
    ∀ e ∈ (key_response_handler env s).2.1, tagOf e = .respond :=
  processKeys_tags env (get_unmatched_keys s) s

theorem post_exchange_key_tags (env : Env) (s : AppState) (c : Contact) :
    ∀ e ∈ (post_exchange_key env s c).2, tagOf e = .exchange := by
  unfold post_exchange_key
  split
  · intro e he
    simp only [List.mem_cons, List.not_mem_nil, or_false] at he
    rw [he]; rfl
  · split <;> intro e he <;>
      simp only [List.mem_cons, List.not_mem_nil, or_false] at he <;>
      (try rcases he with rfl | rfl) <;> (try rw [he]) <;> rfl

theorem postContactsLoop_tags (env : Env) (cs : List Contact) :
    ∀ (s : AppState), ∀ e ∈ (postContactsLoop env cs s).2,
      tagOf e = .exchange := by
  induction cs with
  | nil => intro s e he; simp [postContactsLoop] at he
  | cons c cs ih =>
      intro s e he
      simp only [postContactsLoop, List.mem_append] at he
      rcases he with he | he
      · exact post_exchange_key_tags env s c e he
      · exact ih _ e he

theorem new_contact_key_handler_tags (env : Env) (s : AppState) :
    ∀ e ∈ (new_contact_key_handler env s).2.1, tagOf e = .exchange :=
  postContactsLoop_tags env (get_contacts_without_keys s) s

theorem handleCycleExc_tags (s : AppState) (ex : Exc) :
    ∀ e ∈ (handleCycleExc s ex).2, tagOf e = .cycleWrap := by
  cases ex <;> intro e he <;>
    simp only [handleCycleExc, List.mem_cons, List.not_mem_nil,
      or_false] at he <;> rw [he] <;> rfl

theorem validate_key_input_some (s t : String)
    (h : validate_key_input s = some t) :
    t = s ∧ ∃ bs, b64Decode s = some bs ∧ bs.length = 32 := by
  cases hd : b64Decode s with
  | none => simp [validate_key_input, hd] at h
  | some bs =>
      simp only [validate_key_input, hd] at h
      by_cases hl : bs.length = 32
      · rw [if_pos hl] at h
        exact ⟨(Option.some.inj h).symm, bs, rfl, hl⟩
      · rw [if_neg hl] at h; cases h

theorem validate_signature_input_some (s t : String)
    (h : validate_signature_input s = some t) :
    t = s ∧ ∃ bs, b64Decode s = some bs ∧ bs.length = 64 := by
  cases hd : b64Decode s with
  | none => simp [validate_signature_input, hd] at h
  | some bs =>
      simp only [validate_signature_input, hd] at h
      by_cases hl : bs.length = 64
      · rw [if_pos hl] at h
        exact ⟨(Option.some.inj h).symm, bs, rfl, hl⟩
      · rw [if_neg hl] at h; cases h

/-! ## Concrete fixtures used by witnesses and counterexamples -/

/-- A concrete contact. -/
def cContact : Contact := ⟨1, "alice", [5]⟩

/-- A connected state knowing one contact with no session key and no
pending offers. -/
def cState : AppState :=
  { connected := true, store := ⟨[cContact], [], []⟩, outputLog := [],
    messageLogUpdates := 0, selectedContact := none, entryInput := "" }

/-- A disconnected state with an empty store. -/
def dState : AppState :=
  { connected := false, store := ⟨[], [], []⟩, outputLog := [],
    messageLogUpdates := 0, selectedContact := none, entryInput := "" }

/-- A concrete environment: the ping fails, the fetch succeeds, exchange-key
responses post successfully with server timestamp `7`, and the auto-exchange
post times out. -/
def cEnv : Env :=
  { pingOk := false,
    fetchResult := .ok 0,
    storeFetchedData := fun _ st => st,
    postKeyResult := fun _ => .ok 7,
    freshPriv := fun _ => [1, 2],
    freshPrivContact := fun _ => [3],
    dh := fun a b => a ++ b,
    postExchangeResult := fun _ => .timeout,
    storePostedExchangeKey := fun _ _ st => st,
    fernetEncrypt := fun k p => k ++ p,
    postMessageResult := .ok 0,
    storePostedMessage := fun _ _ _ st => st }

/-- A concrete unmatched inbound offer record. -/
def cOfferRecord : ReceivedExchangeKey := ⟨10, 1, [5], [9], false⟩

/-- A second concrete unmatched inbound offer record. -/
def cOfferRecord2 : ReceivedExchangeKey := ⟨11, 1, [5], [8], false⟩

/-- A state holding both unmatched offer records. -/
def rState : AppState :=
  { connected := true,
    store := ⟨[cContact], [cOfferRecord, cOfferRecord2], []⟩,
    outputLog := [], messageLogUpdates := 0, selectedContact := none,
    entryInput := "" }

/-- An environment in which posting the response for record `10` is rejected
with an HTTP status error while everything else succeeds. -/
def c6Env : Env :=
  { cEnv with postKeyResult := fun i =>
      if i == 10 then .statusError "400 rejected" else .ok 7 }

/-! ## The claims -/

/-- C1. For every decoded fetch element, `is_valid` verifies the element's
signature against its `sender_key` over the kind-specific canonical payload —
for an exchange-key element the raw bytes of its own ephemeral public key,
for a message element the bytes of its `encrypted_text` — and any raise of
the verification primitive yields `false` rather than propagating.  The
embedding of `is_valid` is a pure `Bool`-valued function of the element and
the primitive, so it mutates no state by construction. -/
theorem is_valid_kind_specific_payload
    (verify : List Nat → List Nat → List Nat → Except String Unit)
    (e : FetchResponseExchangeKey) (m : FetchResponseMessage)
    (el : FetchElement) :
    (FetchElement.is_valid verify (.exchangeKey e) = true ↔
      verify e.sender_key.raw e.signature e.exchange_key.raw = .ok ())
    ∧ (FetchElement.is_valid verify (.message m) = true ↔
      verify m.sender_key.raw m.signature (strBytes m.encrypted_text) = .ok ())
    ∧ (FetchElement.is_valid verify el = false ↔
      ∃ msg, verify el.sender_key el.signature el.get_data = .error msg) := by
  refine ⟨?_, ?_, ?_⟩
  · show (match verify e.sender_key.raw e.signature e.exchange_key.raw with
      | .ok _ => true | .error _ => false) = true ↔ _
    cases hv : verify e.sender_key.raw e.signature e.exchange_key.raw <;>
      simp [hv]
  · show (match verify m.sender_key.raw m.signature
        (strBytes m.encrypted_text) with
      | .ok _ => true | .error _ => false) = true ↔ _
    cases hv : verify m.sender_key.raw m.signature
        (strBytes m.encrypted_text) <;> simp [hv]
  · show (match verify el.sender_key el.signature el.get_data with
      | .ok _ => true | .error _ => false) = false ↔ _
    cases hv : verify el.sender_key el.signature el.get_data <;> simp [hv]

/-- C9. A text-encoded key field is accepted only when it is exactly 44
characters (decoding to 32 bytes), a text-encoded signature field only when
it is exactly 88 characters (decoding to 64 bytes); any other length is
rejected as malformed and no accepted value is ever coerced (the accepted
value is the input itself). -/
theorem wire_field_length_gate :
    (∀ s t, base64KeyAccept s = some t →
        t = s ∧ s.length = 44 ∧ ∃ bs, b64Decode s = some bs ∧ bs.length = 32)
    ∧ (∀ s, s.length ≠ 44 → base64KeyAccept s = none)
    ∧ (∀ s t, base64SignatureAccept s = some t →
        t = s ∧ s.length = 88 ∧ ∃ bs, b64Decode s = some bs ∧ bs.length = 64)
    ∧ (∀ s, s.length ≠ 88 → base64SignatureAccept s = none) := by
  refine ⟨?_, ?_, ?_, ?_⟩
  · intro s t h
    rcases hv : validate_key_input s with _ | u
    · simp only [base64KeyAccept, hv] at h; cases h
    · obtain ⟨hus, hdec⟩ := validate_key_input_some s u hv
      simp only [base64KeyAccept, hv, hus] at h
      by_cases hlen : 44 ≤ s.length ∧ s.length ≤ 44
      · rw [if_pos hlen] at h
        obtain rfl := Option.some.inj h
        exact ⟨rfl, by omega, hdec⟩
      · rw [if_neg hlen] at h; cases h
  · intro s h
    rcases hv : validate_key_input s with _ | u
    · simp only [base64KeyAccept, hv]
    · obtain ⟨hus, -⟩ := validate_key_input_some s u hv
      simp only [base64KeyAccept, hv, hus]
      rw [if_neg (by omega)]
  · intro s t h
    rcases hv : validate_signature_input s with _ | u
    · simp only [base64SignatureAccept, hv] at h; cases h
    · obtain ⟨hus, hdec⟩ := validate_signature_input_some s u hv
      simp only [base64SignatureAccept, hv, hus] at h
      by_cases hlen : 88 ≤ s.length ∧ s.length ≤ 88
      · rw [if_pos hlen] at h
        obtain rfl := Option.some.inj h
        exact ⟨rfl, by omega, hdec⟩
      · rw [if_neg hlen] at h; cases h
  · intro s h
    rcases hv : validate_signature_input s with _ | u
    · simp only [base64SignatureAccept, hv]
    · obtain ⟨hus, -⟩ := validate_signature_input_some s u hv
      simp only [base64SignatureAccept, hv, hus]
      rw [if_neg (by omega)]

/-- Witness for C9: a 3-character string is rejected by both field gates. -/
theorem wire_field_length_gate_witness :
    base64KeyAccept "abc" = none ∧ base64SignatureAccept "abc" = none :=
  ⟨wire_field_length_gate.2.1 "abc" (by decide),
   wire_field_length_gate.2.2.2 "abc" (by decide)⟩

/-- C10. When the store holds zero known contact verification keys, the
fetch step issues no fetch request (empty event trace, hence no network
call), changes no state, and raises nothing: it returns immediately. -/
theorem fetch_skipped_without_contact_keys (env : Env) (s : AppState)
    (h : get_contact_keys s = []) :
    fetch_handler env s = (s, [], none) := by
  unfold fetch_handler
  rw [h]
  rfl

/-- Witness for C10: the empty-store state. -/
theorem fetch_skipped_without_contact_keys_witness :
    fetch_handler cEnv dState = (dState, [], none) :=
  fetch_skipped_without_contact_keys cEnv dState rfl

/-- C5. Responding to an unmatched inbound exchange-key offer whose post
succeeds persists, in one persistence step, exactly the url-safe base64
encoding of the raw Diffie-Hellman shared secret between the freshly
generated local private key and the offer's public key (no key-derivation
function applied) together with the source record's `matched` flag set to
`true`. -/
theorem respond_persists_raw_shared_secret (env : Env)
    (k : ReceivedExchangeKey) (s : AppState) (ts : Nat)
    (h : env.postKeyResult k.id = .ok ts) :
    processKeys env [k] s =
      ({ s with store :=
          { s.store with
              receivedKeys := markMatched s.store.receivedKeys k.id,
              fernetKeys := s.store.fernetKeys ++
                [⟨urlsafe_b64encode (env.dh (env.freshPriv k.id) k.public_key),
                  k.contact_id, ts⟩] } },
       [.net .respond (.postKey k.id)], none) := by
  simp [processKeys, h]

/-- Witness for C5: with `dh = append`, private key `[1, 2]` and offer key
`[9]`, the persisted material is the url-safe base64 text of
`[1, 2, 9]`, namely `"AQIJ"`, and the record is marked matched. -/
theorem respond_persists_raw_shared_secret_witness :
    processKeys cEnv [cOfferRecord] rState =
      ({ rState with store :=
          { rState.store with
              receivedKeys := [⟨10, 1, [5], [9], true⟩, cOfferRecord2],
              fernetKeys := [⟨"AQIJ", 1, 7⟩] } },
       [.net .respond (.postKey 10)], none) := by
  rw [respond_persists_raw_shared_secret cEnv cOfferRecord rState 7 rfl]
  decide

/-- C6. In the respond-to-unmatched-offers step, a record whose response
post is rejected with a status error is reported ("Bad Response" log entry),
persists no session key and leaves its `matched` flag untouched (the state
handed to the rest of the loop differs from the input state only in the
output log), and processing continues with the remaining records. -/
theorem rejected_response_skips_and_continues (env : Env)
    (k : ReceivedExchangeKey) (rest : List ReceivedExchangeKey)
    (s : AppState) (d : String)
    (h : env.postKeyResult k.id = .statusError d)
    (hid : k.id ∉ rest.map (·.id)) :
    processKeys env (k :: rest) s =
      ((processKeys env rest (pushLog s "Bad Response")).1,
        .net .respond (.postKey k.id) :: .logEv .respond "Bad Response" ::
          (processKeys env rest (pushLog s "Bad Response")).2.1,
        (processKeys env rest (pushLog s "Bad Response")).2.2)
    ∧ (pushLog s "Bad Response").store = s.store
    ∧ matchedOf (processKeys env (k :: rest) s).1 k.id = matchedOf s k.id := by
  refine ⟨by simp [processKeys, h], rfl, ?_⟩
  have h2 : (processKeys env (k :: rest) s).1 =
      (processKeys env rest (pushLog s "Bad Response")).1 := by
    simp [processKeys, h]
  rw [h2, processKeys_matched_frame env rest k.id hid]
  rfl

/-- Witness for C6: with record `10` rejected and record `11` accepted, the
rejected record's `matched` flag is still `false` afterwards while record
`11` was processed and matched. -/
theorem rejected_response_skips_and_continues_witness :
    matchedOf (processKeys c6Env [cOfferRecord, cOfferRecord2] rState).1
      cOfferRecord.id = some false ∧
    matchedOf (processKeys c6Env [cOfferRecord, cOfferRecord2] rState).1
      cOfferRecord2.id = some true := by
  have h := (rejected_response_skips_and_continues c6Env cOfferRecord
    [cOfferRecord2] rState "400 rejected" (by decide) (by decide)).2.2
  refine ⟨?_, by decide⟩
  rw [h]
  decide

/-- A state in which `alice` is selected, has two session keys (timestamps
`5` and `9`), and the entry holds the plaintext `"hi"`. -/
def pState2 : AppState :=
  { connected := true,
    store := ⟨[cContact], [], [⟨"k1", 1, 5⟩, ⟨"k2", 1, 9⟩]⟩,
    outputLog := [], messageLogUpdates := 0,
    selectedContact := some cContact, entryInput := "hi" }

/-- A state in which `alice` is selected but has no session key, and the
entry holds the plaintext `"hi"`. -/
def pState8 : AppState :=
  { connected := true, store := ⟨[cContact], [], []⟩,
    outputLog := [], messageLogUpdates := 0,
    selectedContact := some cContact, entryInput := "hi" }

/-- C2. For every outbound message post to a contact with at least one
session key, the key handed to the encryption primitive (recorded in the
`postMsg` network event, which always heads the step's trace) is the most
recently derived of that contact's session keys: it belongs to the contact's
keys and its derivation timestamp is maximal among them. -/
theorem most_recent_session_key_encrypts (env : Env) (s : AppState)
    (sel obj : Contact)
    (hsel : s.selectedContact = some sel)
    (hin : s.entryInput ≠ "")
    (hconn : s.connected = true)
    (hfind : s.store.contacts.find? (fun c => c.id == sel.id) = some obj)
    (hkeys : s.store.fernetKeys.filter (fun fk => fk.contact_id == obj.id) ≠ []) :
    ∃ fk tl,
      contactFernetKeys s obj.id = fk :: tl
      ∧ fk ∈ s.store.fernetKeys.filter (fun k2 => k2.contact_id == obj.id)
      ∧ (∀ k2 ∈ s.store.fernetKeys.filter (fun k2 => k2.contact_id == obj.id),
          k2.timestamp ≤ fk.timestamp)
      ∧ (post_message env s).2.head? = some (Ev.net .uiOp
          (.postMsg fk.encoded_bytes
            (env.fernetEncrypt fk.encoded_bytes s.entryInput))) := by
  obtain ⟨fk, tl, hsort⟩ : ∃ fk tl, contactFernetKeys s obj.id = fk :: tl := by
    rcases hcf : contactFernetKeys s obj.id with _ | ⟨fk, tl⟩
    · exact absurd hcf (sortDesc_ne_nil _ hkeys)
    · exact ⟨fk, tl, rfl⟩
  refine ⟨fk, tl, hsort, sortDesc_head_mem _ _ _ hsort,
    sortDesc_head_max _ _ _ hsort, ?_⟩
  simp only [post_message, hsel, hfind, hsort]
  rw [if_neg hin, if_neg (by rw [hconn]; simp)]
  cases env.postMessageResult <;> rfl

/-- Witness for C2: of the two session keys of `alice` (timestamps `5` and
`9`), the posted message is encrypted under the key with timestamp `9`. -/
theorem most_recent_session_key_encrypts_witness :
    (post_message cEnv pState2).2.head? =
      some (Ev.net .uiOp (.postMsg "k2" "k2hi")) := by
  obtain ⟨fk, tl, hsort, hmem, hmax, hhead⟩ :=
    most_recent_session_key_encrypts cEnv pState2 cContact cContact rfl
      (by decide) rfl (by decide) (by decide)
  rw [hhead]
  have hs : contactFernetKeys pState2 cContact.id =
      [⟨"k2", 1, 9⟩, ⟨"k1", 1, 5⟩] := by decide
  rw [hs] at hsort
  obtain ⟨rfl, -⟩ := List.cons.inj hsort
  decide

/-- C8. Posting a message to a contact that has no session key is refused
before any network operation (the trace holds a single log event and no
network call), persists nothing (the state is unchanged except for the
appended log entry), and the refusal is reported as the precondition-failure
log entry "Message Post Error - No Encryption Key". -/
theorem no_session_key_post_refused (env : Env) (s : AppState)
    (sel obj : Contact)
    (hsel : s.selectedContact = some sel)
    (hin : s.entryInput ≠ "")
    (hconn : s.connected = true)
    (hfind : s.store.contacts.find? (fun c => c.id == sel.id) = some obj)
    (hkeys : s.store.fernetKeys.filter (fun fk => fk.contact_id == obj.id) = []) :
    post_message env s =
      (pushLog s "Message Post Error - No Encryption Key",
       [.logEv .uiOp "Message Post Error - No Encryption Key"]) := by
  have hcf : contactFernetKeys s obj.id = [] := by
    rw [contactFernetKeys, hkeys]; rfl
  simp only [post_message, hsel, hfind, hcf]
  rw [if_neg hin, if_neg (by rw [hconn]; simp)]

/-- Witness for C8: concrete refusal for `alice` with no session key. -/
theorem no_session_key_post_refused_witness :
    post_message cEnv pState8 =
      (pushLog pState8 "Message Post Error - No Encryption Key",
       [.logEv .uiOp "Message Post Error - No Encryption Key"]) :=
  no_session_key_post_refused cEnv pState8 cContact cContact rfl
    (by decide) rfl (by decide) rfl

/-- C7. Within every single CONNECTED sync cycle the observable trace
decomposes as the fetch step's events, then the respond-to-unmatched-offers
step's events, then the auto-exchange step's events, then the cycle's
exception-report events: the three steps run in this fixed order, each step's
events fully preceding the next step's, and no later step starts once an
earlier step has aborted the cycle. -/
theorem cycle_fixed_step_order (env : Env) (s : AppState) :
    ∃ t1 t2 t3 t4,
      (runConnectedCycle env s).2 = t1 ++ t2 ++ t3 ++ t4
      ∧ (∀ e ∈ t1, tagOf e = .fetch)
      ∧ (∀ e ∈ t2, tagOf e = .respond)
      ∧ (∀ e ∈ t3, tagOf e = .exchange)
      ∧ (∀ e ∈ t4, tagOf e = .cycleWrap) := by
  rcases hf : (fetch_handler env s).2.2 with _ | e1
  case some =>
    refine ⟨(fetch_handler env s).2.1, [], [],
      (handleCycleExc (fetch_handler env s).1 e1).2, ?_,
      fetch_handler_tags env s, by simp, by simp, handleCycleExc_tags _ _⟩
    simp [runConnectedCycle, hf]
  case none =>
    rcases hk : (key_response_handler env (fetch_handler env s).1).2.2
      with _ | e2
    case some =>
      refine ⟨(fetch_handler env s).2.1,
        (key_response_handler env (fetch_handler env s).1).2.1, [],
        (handleCycleExc
          (key_response_handler env (fetch_handler env s).1).1 e2).2,
        ?_, fetch_handler_tags env s, key_response_handler_tags env _,
        by simp, handleCycleExc_tags _ _⟩
      simp [runConnectedCycle, hf, hk]
    case none =>
      refine ⟨(fetch_handler env s).2.1,
        (key_response_handler env (fetch_handler env s).1).2.1,
        (new_contact_key_handler env
          (key_response_handler env (fetch_handler env s).1).1).2.1, [],
        ?_, fetch_handler_tags env s, key_response_handler_tags env _,
        new_contact_key_handler_tags env _, by simp⟩
      simp [runConnectedCycle, hf, hk, new_contact_key_handler]

/-- C3 (amended). During a CONNECTED sync cycle, a network timeout raised by
the fetch step or by the respond-to-unmatched-offers step transitions the
engine to DISCONNECTED and aborts the remainder of the cycle (no later-step
events appear); any other unexpected failure escaping those steps is
reported to the event log ("Unhandled Server Error") and leaves the
connected flag unchanged; and a network timeout during the auto-exchange
step's per-contact post is caught inside that post and only reported
("Exchange Key Post Error"), so the step never raises and the engine stays
CONNECTED. -/
theorem cycle_timeout_handling (env : Env) (s : AppState) :
    ((fetch_handler env s).2.2 = some .timeoutExc →
        (runConnectedCycle env s).1.connected = false
        ∧ ∀ e ∈ (runConnectedCycle env s).2,
            tagOf e ≠ .respond ∧ tagOf e ≠ .exchange)
    ∧ ((fetch_handler env s).2.2 = none →
        (key_response_handler env (fetch_handler env s).1).2.2 =
          some .timeoutExc →
        (runConnectedCycle env s).1.connected = false
        ∧ ∀ e ∈ (runConnectedCycle env s).2, tagOf e ≠ .exchange)
    ∧ (∀ d, (fetch_handler env s).2.2 = some (.otherExc d) →
        (runConnectedCycle env s).1.connected = s.connected
        ∧ "Unhandled Server Error" ∈ (runConnectedCycle env s).1.outputLog)
    ∧ (∀ d, (fetch_handler env s).2.2 = none →
        (key_response_handler env (fetch_handler env s).1).2.2 =
          some (.otherExc d) →
        (runConnectedCycle env s).1.connected = s.connected
        ∧ "Unhandled Server Error" ∈ (runConnectedCycle env s).1.outputLog)
    ∧ ((fetch_handler env s).2.2 = none →
        (key_response_handler env (fetch_handler env s).1).2.2 = none →
        (runConnectedCycle env s).1.connected = s.connected)
    ∧ (∀ c : Contact, s.connected = true →
        env.postExchangeResult c.id = .timeout →
        post_exchange_key env s c =
          (pushLog s "Exchange Key Post Error",
           [.net .exchange (.postExchange c.id),
            .logEv .exchange "Exchange Key Post Error"])) := by
  refine ⟨?_, ?_, ?_, ?_, ?_, ?_⟩
  · intro hf
    have hred : runConnectedCycle env s =
        ((handleCycleExc (fetch_handler env s).1 .timeoutExc).1,
         (fetch_handler env s).2.1 ++
           (handleCycleExc (fetch_handler env s).1 .timeoutExc).2) := by
      simp [runConnectedCycle, hf]
    rw [hred]
    refine ⟨rfl, ?_⟩
    intro e he
    rcases List.mem_append.mp he with he | he
    · rw [fetch_handler_tags env s e he]; exact ⟨by simp, by simp⟩
    · rw [handleCycleExc_tags _ _ e he]; exact ⟨by simp, by simp⟩
  · intro hf hk
    have hred : runConnectedCycle env s =
        ((handleCycleExc
            (key_response_handler env (fetch_handler env s).1).1
            .timeoutExc).1,
         (fetch_handler env s).2.1 ++
           (key_response_handler env (fetch_handler env s).1).2.1 ++
           (handleCycleExc
             (key_response_handler env (fetch_handler env s).1).1
             .timeoutExc).2) := by
      simp [runConnectedCycle, hf, hk]
    rw [hred]
    refine ⟨rfl, ?_⟩
    intro e he
    rcases List.mem_append.mp he with he | he
    · rcases List.mem_append.mp he with he | he
      · rw [fetch_handler_tags env s e he]; simp
      · rw [key_response_handler_tags env _ e he]; simp
    · rw [handleCycleExc_tags _ _ e he]; simp
  · intro d hf
    have hred : (runConnectedCycle env s).1 =
        pushLog (fetch_handler env s).1 "Unhandled Server Error" := by
      simp [runConnectedCycle, hf, handleCycleExc]
    rw [hred]
    exact ⟨fetch_handler_connected env s, by simp [pushLog]⟩
  · intro d hf hk
    have hred : (runConnectedCycle env s).1 =
        pushLog (key_response_handler env (fetch_handler env s).1).1
          "Unhandled Server Error" := by
      simp [runConnectedCycle, hf, hk, handleCycleExc]
    rw [hred]
    refine ⟨?_, by simp [pushLog]⟩
    exact (key_response_handler_connected env _).trans
      (fetch_handler_connected env s)
  · intro hf hk
    have hred : (runConnectedCycle env s).1 =
        (new_contact_key_handler env
          (key_response_handler env (fetch_handler env s).1).1).1 := by
      simp [runConnectedCycle, hf, hk, new_contact_key_handler]
    rw [hred]
    exact (new_contact_key_handler_connected env _).trans
      ((key_response_handler_connected env _).trans
        (fetch_handler_connected env s))
  · intro c hconn htimeout
    simp [post_exchange_key, hconn, htimeout]

/-- Counterexample to C3 as frozen: with one new contact and an environment
whose auto-exchange post times out, a network timeout occurs during the
third cycle step, yet the engine stays CONNECTED — the timeout is caught
inside the per-contact post and only reported, contradicting "every network
timeout raised by any of the three cycle steps transitions the engine's
state to DISCONNECTED". -/
theorem cycle_timeout_handling_counterexample :
    cEnv.postExchangeResult cContact.id = .timeout
    ∧ (runConnectedCycle cEnv cState).1.connected = true
    ∧ "Exchange Key Post Error" ∈
        (runConnectedCycle cEnv cState).1.outputLog := by
  decide

/-- Witness for C3 (amended): in the concrete run the first two steps raise
nothing and the connected flag is preserved through the cycle. -/
theorem cycle_timeout_handling_witness :
    (runConnectedCycle cEnv cState).1.connected = cState.connected :=
  (cycle_timeout_handling cEnv cState).2.2.2.2.1 (by decide) (by decide)

/-- C4 (amended). Every background-loop iteration in the DISCONNECTED state
issues a reachability probe; on probe failure the engine remains
DISCONNECTED with its state unchanged, and the next probe is issued
immediately: the disconnected branch `continue`s past the poll-interval
sleep, so `n` failing iterations produce exactly `n` consecutive probe
events and no sleep event between them. -/
theorem disconnected_probe_no_interval (env : Env) (s : AppState) (n : Nat)
    (hconn : s.connected = false) (hping : env.pingOk = false) :
    runLoop env n s = (s, List.replicate n (.net .loopOp .pingOp)) := by
  induction n with
  | zero => rfl
  | succ n ih =>
      have hs : { s with connected := false } = s := by
        cases s
        simp only at hconn
        rw [hconn]
      have hiter : loopIteration env s = (s, [.net .loopOp .pingOp]) := by
        simp [loopIteration, ping_server, hconn, hping, hs]
      simp [runLoop, hiter, ih, List.replicate_succ]

/-- Counterexample to C4 as frozen: two consecutive DISCONNECTED iterations
with a failing probe produce two probe events and no sleep event anywhere in
the trace — the second probe is issued immediately rather than only after
the fixed poll interval has elapsed. -/
theorem disconnected_probe_no_interval_counterexample :
    (runLoop cEnv 2 dState).2 =
      [.net .loopOp .pingOp, .net .loopOp .pingOp]
    ∧ Ev.sleepEv ∉ (runLoop cEnv 2 dState).2
    ∧ (runLoop cEnv 2 dState).1.connected = false := by
  decide

/-- Witness for C4 (amended): three failing probes in a row, no sleep
events, state unchanged. -/
theorem disconnected_probe_no_interval_witness :
    runLoop cEnv 3 dState =
      (dState, List.replicate 3 (.net .loopOp .pingOp)) :=
  disconnected_probe_no_interval cEnv dState 3 rfl rfl

end Cursecord
